import Mathlib

/-!
Shallow embedding of the KPI derivation engine of the work-measurement tool.

Sources embedded here:
* `src/src/App.tsx` — employee state mutators (`addEmployee`, `startTimer`,
  `confirmReason`), the live-time projection (`liveTimes`), and the KPI memos
  (`totalActive`, `totalIdle`, `firstStartAt`, `lastStopAt`, `anyEngaged`,
  `actualClockMs`, `utilization`, `crewHours`, `idleRatio`, `dailyBreakdown`).
* `src/unnamed/part_001` and `src/unnamed/part_002` — the report generators'
  duplicated `calcKPIs`; the two copies are textually identical, so one Lean
  definition `calcKPIs` embeds both.

Modelling conventions:
* JS millisecond timestamps and durations are `Int` (they are produced by
  `Date.now()` and integer arithmetic in the source; no fractional values
  arise on the paths embedded here).
* TS `number | null` fields are `Option Int`; JS truthiness of such a field
  (`!x`, `x ? _ : _`, `a && x`) is `truthyNum` — false for `null` AND for `0`.
  The nullish operator `??` and `== null` test only `none` (`Option.getD`,
  `Option.isNone`).
* The runtime value of a log entry's `event` is a string compared against
  literals in the source, so `event : String` (this also represents malformed
  tags); an `employeeId` that is not a number (`typeof x === "number"` fails)
  is `none`.
* JS float division in `utilization` / `crewHours` / `idleRatio` is exact
  rational division (`ℚ`).
* The observer's local time zone is a fixed UTC offset `off` in milliseconds
  (local wall time = UTC instant + `off`).
  `new Date(new Date(a).toDateString()).getTime()` is the start of the local
  calendar day containing `a`, i.e. `localDayStart off a`;
  `new Date(a).toISOString().slice(0, 10)` is the UTC calendar date of `a`,
  identified with its day number `utcDayKey a` (the `YYYY-MM-DD` string is in
  bijection with the day number).
* JS `Record`s are association lists in key-insertion order; `Array.sort` with
  comparator `(a, b) => a.at - b.at` is a stable sort by `at` (ES2019).
-/

namespace WorkMeasurement

/-- Employee status union `"idle" | "active" | "paused"` (`EmpStatus` in the
source). -/
inductive EmpStatus where
  | idle
  | active
  | paused
deriving DecidableEq, Repr

/-- `Employee` record from `App.tsx` / the report modules. The UI-only fields
`logs` (locale-formatted strings), `role`, `skill` are omitted: no embedded
computation reads them. -/
structure Employee where
  id : Int
  name : String
  status : EmpStatus
  startTime : Option Int
  elapsedTime : Int
  pausedAccum : Int
  lastPausedAt : Option Int
deriving DecidableEq, Repr

/-- `TimeLogEntry` record. `event` is a runtime string (see module comment);
`employeeId : Option Int` models `number | null` with `none` also standing for
any non-numeric runtime value. -/
structure TimeLogEntry where
  id : Int
  «at» : Int
  employeeId : Option Int
  employeeName : String
  event : String
  reasonCode : Option String
  comment : Option String
deriving DecidableEq, Repr

/-- JS truthiness of a `number | null` value: `null` and `0` are falsy. -/
def truthyNum : Option Int → Bool
  | none => false
  | some v => v != 0

/-- Result of the live-time projection. -/
structure LiveTimes where
  active : Int
  idle : Int
  total : Int
deriving DecidableEq, Repr

/-- `liveTimes` from `App.tsx`:
`active = e.status === "active" && e.startTime ? e.elapsedTime + (nowMs - e.startTime) : e.elapsedTime`,
`idle = e.status === "paused" && e.lastPausedAt ? e.pausedAccum + (nowMs - e.lastPausedAt) : e.pausedAccum`,
`total = active + idle`. The guard uses JS truthiness of the timestamp. -/
def liveTimes (nowMs : Int) (e : Employee) : LiveTimes :=
  let active :=
    if e.status == EmpStatus.active && truthyNum e.startTime then
      e.elapsedTime + (nowMs - e.startTime.getD 0)
    else e.elapsedTime
  let idle :=
    if e.status == EmpStatus.paused && truthyNum e.lastPausedAt then
      e.pausedAccum + (nowMs - e.lastPausedAt.getD 0)
    else e.pausedAccum
  ⟨active, idle, active + idle⟩

/-- `totalActive` memo from `App.tsx` (the `liveTimes` active formula inlined
into a `reduce` with initial value `0`). -/
def totalActive (nowMs : Int) (employees : List Employee) : Int :=
  employees.foldl
    (fun sum e =>
      sum +
        (if e.status == EmpStatus.active && truthyNum e.startTime then
          e.elapsedTime + (nowMs - e.startTime.getD 0)
        else e.elapsedTime))
    0

/-- `totalIdle` memo from `App.tsx`. -/
def totalIdle (nowMs : Int) (employees : List Employee) : Int :=
  employees.foldl
    (fun sum e =>
      sum +
        (if e.status == EmpStatus.paused && truthyNum e.lastPausedAt then
          e.pausedAccum + (nowMs - e.lastPausedAt.getD 0)
        else e.pausedAccum))
    0

/-- `firstStartAt` memo: `starts.length ? Math.min(...starts) : null` over the
`at` fields of entries with `event === "start"`. -/
def firstStartAt (timeLog : List TimeLogEntry) : Option Int :=
  let starts := (timeLog.filter (fun t => t.event == "start")).map (·.«at»)
  match starts with
  | [] => none
  | x :: xs => some (xs.foldl min x)

/-- `lastStopAt` memo: `ends.length ? Math.max(...ends) : null` over the `at`
fields of entries with `event === "stop" || event === "deleted"`. -/
def lastStopAt (timeLog : List TimeLogEntry) : Option Int :=
  let ends :=
    (timeLog.filter (fun t => t.event == "stop" || t.event == "deleted")).map (·.«at»)
  match ends with
  | [] => none
  | x :: xs => some (xs.foldl max x)

/-- `anyEngaged` memo (`anyEngagedNow` in the report copies):
`employees.some(e => e.status === "active" || e.status === "paused")`. -/
def anyEngaged (employees : List Employee) : Bool :=
  employees.any (fun e => e.status == EmpStatus.active || e.status == EmpStatus.paused)

/-- `actualClockMs` memo from `App.tsx` (the report copies compute the same
with a ternary): `if (!firstStartAt) return 0;` — note the JS truthiness: a
first start at timestamp `0` takes the early `return 0` branch — then
`end = anyEngaged ? nowMs : (lastStopAt ?? nowMs)` and
`Math.max(0, end - firstStartAt)`. -/
def actualClockMs (employees : List Employee) (timeLog : List TimeLogEntry)
    (nowMs : Int) : Int :=
  if truthyNum (firstStartAt timeLog) = false then 0
  else
    let e := if anyEngaged employees then nowMs else (lastStopAt timeLog).getD nowMs
    max 0 (e - (firstStartAt timeLog).getD 0)

/-- `utilization` memo: `actualClockMs ? totalActive / actualClockMs : 0`
(truthiness of the non-negative integer `actualClockMs` is `≠ 0`). -/
def utilization (employees : List Employee) (timeLog : List TimeLogEntry)
    (nowMs : Int) : ℚ :=
  if actualClockMs employees timeLog nowMs ≠ 0 then
    (totalActive nowMs employees : ℚ) / (actualClockMs employees timeLog nowMs : ℚ)
  else 0

/-- `crewHours` memo: `totalActive / 3_600_000`. -/
def crewHours (nowMs : Int) (employees : List Employee) : ℚ :=
  (totalActive nowMs employees : ℚ) / 3600000

/-- `idleRatio` memo: `totalAll ? totalIdle / totalAll : 0`. -/
def idleRatio (nowMs : Int) (employees : List Employee) : ℚ :=
  let totalAll := totalActive nowMs employees + totalIdle nowMs employees
  if totalAll ≠ 0 then (totalIdle nowMs employees : ℚ) / (totalAll : ℚ) else 0

/-! Daily breakdown replay. The block below is textually identical in
`App.tsx` (`dailyBreakdown` memo) and in both report copies of `calcKPIs`
(`part_001` lines 334–372, `part_002` lines 134–172), so it is embedded once. -/

/-- Milliseconds per calendar day (`24 * 3600 * 1000` in the source). -/
def MS_PER_DAY : Int := 86400000

/-- `new Date(new Date(a).toDateString()).getTime()`: the UTC instant of the
start of the local calendar day containing `a`, for a fixed-offset local zone
`off` (ms east of UTC). `Int` division is floor division for the positive
divisor. -/
def localDayStart (off a : Int) : Int :=
  (a + off) / MS_PER_DAY * MS_PER_DAY - off

/-- `new Date(a).toISOString().slice(0, 10)`: the UTC calendar date of `a`,
identified with its epoch day number. -/
def utcDayKey (a : Int) : Int :=
  a / MS_PER_DAY

/-- The local calendar date of `a` as an epoch day number in the local zone
`off`. Specification-side notion only (the source never computes it): the spec
asserts this is the daily bucket key, `utcDayKey` is what the code uses. -/
def localDayKey (off a : Int) : Int :=
  (a + off) / MS_PER_DAY

/-- One daily bucket `{ actualMs, touchMs, idleMs }`. -/
structure Bucket where
  actualMs : Int
  touchMs : Int
  idleMs : Int
deriving DecidableEq, Repr

/-- The `rows` / `daily` record: an association list from day key to bucket,
in key-insertion order (JS string-keyed object semantics). -/
abbrev Rows := List (Int × Bucket)

/-- `rows[key] = rows[key] or fresh; rows[key].actualMs += dur; touchMs +=
dur * activeCnt; idleMs += dur * pausedCnt` — update the bucket at `key` in
place, appending a fresh bucket if the key is absent. -/
def bump (rows : Rows) (key dur ac pc : Int) : Rows :=
  match rows with
  | [] => [(key, ⟨dur, dur * ac, dur * pc⟩)]
  | (k, b) :: rest =>
    if k = key then
      (k, ⟨b.actualMs + dur, b.touchMs + dur * ac, b.idleMs + dur * pc⟩) :: rest
    else (k, b) :: bump rest key dur ac pc

lemma localDayStart_le (off a : Int) : localDayStart off a ≤ a := by
  unfold localDayStart MS_PER_DAY
  omega

lemma lt_localDayStart_add (off a : Int) :
    a < localDayStart off a + MS_PER_DAY := by
  unfold localDayStart MS_PER_DAY
  omega

/-- The `while (a < t1)` loop body of `addSpan`: clip the current position `a`
at the end of its local day (`dayEnd`), credit the sub-span `[a, b)` to the
bucket keyed by the UTC date of `a`, and continue from `b`. -/
def addSpanLoop (off ac pc t1 : Int) (a : Int) (rows : Rows) : Rows :=
  if h : a < t1 then
    let dayEnd := localDayStart off a + MS_PER_DAY
    let b := min t1 dayEnd
    addSpanLoop off ac pc t1 b (bump rows (utcDayKey a) (b - a) ac pc)
  else rows
termination_by (t1 - a).toNat
decreasing_by
  have h1 := localDayStart_le off a
  have h2 := lt_localDayStart_add off a
  simp only [b, dayEnd] at *
  omega

/-- `Object.values(snapshot).filter(s => s === st).length` — the crew-weight
count of snapshot entries in status `st`. -/
def countStatus (snap : List (Int × EmpStatus)) (st : EmpStatus) : Int :=
  (((snap.map Prod.snd)).filter (fun s => s == st)).length

/-- `addSpan(t0, t1)` from the replay: no-op when `t1 <= t0`, otherwise walk
`[t0, t1)` with the pre-computed `activeCnt` / `pausedCnt` crew weights. -/
def addSpan (off : Int) (snap : List (Int × EmpStatus)) (t0 t1 : Int)
    (rows : Rows) : Rows :=
  if t1 ≤ t0 then rows
  else addSpanLoop off (countStatus snap EmpStatus.active)
    (countStatus snap EmpStatus.paused) t1 t0 rows

/-- `snapshot[id] = st`: update the entry for `id`, adding it when absent
(seeding makes the absent case unreachable in the replay). -/
def setStatus (snap : List (Int × EmpStatus)) (id : Int) (st : EmpStatus) :
    List (Int × EmpStatus) :=
  if snap.any (fun p => p.1 == id) then
    snap.map (fun p => if p.1 == id then (p.1, st) else p)
  else snap ++ [(id, st)]

/-- The transition step of the replay loop:
`if (typeof ev.employeeId === "number") { if start → active; if pause →
paused; if stop || deleted → idle }`. Entries with a non-numeric
`employeeId` or an unrecognized `event` tag leave the snapshot unchanged. -/
def applyEvent (snap : List (Int × EmpStatus)) (ev : TimeLogEntry) :
    List (Int × EmpStatus) :=
  match ev.employeeId with
  | none => snap
  | some id =>
    if ev.event == "start" then setStatus snap id EmpStatus.active
    else if ev.event == "pause" then setStatus snap id EmpStatus.paused
    else if ev.event == "stop" || ev.event == "deleted" then
      setStatus snap id EmpStatus.idle
    else snap

/-- `new Set(xs)` iterated in insertion order: deduplicate keeping the first
occurrence of each element. -/
def dedupFirst (l : List Int) : List Int :=
  l.foldl (fun acc x => if acc.contains x then acc else acc ++ [x]) []

/-- Stable insertion of `x` after every already-placed entry whose `at` is
`≤ x.at`. -/
def insertByAt (x : TimeLogEntry) : List TimeLogEntry → List TimeLogEntry
  | [] => [x]
  | y :: ys => if y.«at» ≤ x.«at» then y :: insertByAt x ys else x :: y :: ys

/-- `[...timeLog].sort((a, b) => a.at - b.at)`: stable sort by `at` (modelled
as a left-to-right stable insertion sort, which computes exactly the stable
sorted permutation required by the ES specification). -/
def sortByAt (l : List TimeLogEntry) : List TimeLogEntry :=
  l.foldl (fun acc x => insertByAt x acc) []

/-- The `dailyBreakdown` replay (identical in `App.tsx` and both report
copies): sort the log by `at`; return empty for an empty log; seed every
numeric `employeeId` occurring in the log to `idle`; for each event add the
span from the previous timestamp using the pre-transition snapshot, then apply
the transition; finally, when `lastStopAt == null`, extend the open span to
`now`. -/
def dailyBreakdown (off : Int) (timeLog : List TimeLogEntry) (nowMs : Int) :
    Rows :=
  let events := sortByAt timeLog
  match events with
  | [] => []
  | e0 :: _ =>
    let snap0 : List (Int × EmpStatus) :=
      (dedupFirst (events.filterMap (·.employeeId))).map
        (fun id => (id, EmpStatus.idle))
    let st :=
      events.foldl
        (fun (st : Int × List (Int × EmpStatus) × Rows) ev =>
          let rows := addSpan off st.2.1 st.1 ev.«at» st.2.2
          (ev.«at», applyEvent st.2.1 ev, rows))
        (e0.«at», snap0, ([] : Rows))
    if (lastStopAt timeLog).isNone then addSpan off st.2.1 st.1 nowMs st.2.2
    else st.2.2

/-- The KPI snapshot `{ totalActive, totalIdle, totalAll, actualClockMs,
utilization, crewHours, idleRatio, daily }`. -/
structure KPIs where
  totalActive : Int
  totalIdle : Int
  totalAll : Int
  actualClockMs : Int
  utilization : ℚ
  crewHours : ℚ
  idleRatio : ℚ
  daily : Rows
deriving DecidableEq, Repr

/-- The dashboard KPI computation of `App.tsx`, packaged as one record: the
separate `useMemo` values `totalActive` … `dailyBreakdown`, all evaluated at
the shared render-time `nowMs`. -/
def appKPIs (off : Int) (employees : List Employee)
    (timeLog : List TimeLogEntry) (nowMs : Int) : KPIs :=
  { totalActive := totalActive nowMs employees
    totalIdle := totalIdle nowMs employees
    totalAll := totalActive nowMs employees + totalIdle nowMs employees
    actualClockMs := actualClockMs employees timeLog nowMs
    utilization := utilization employees timeLog nowMs
    crewHours := crewHours nowMs employees
    idleRatio := idleRatio nowMs employees
    daily := dailyBreakdown off timeLog nowMs }

/-- `calcKPIs(info, employees, timeLog, liveTimes)` from the report modules
(`part_001` lines 307–373 and the textually identical `part_002` lines
107–173). `info` is consumed only by `_use` and is omitted; the ambient
`Date.now()` is the explicit parameter `now`; `liveT` is the injected
`liveTimes` function. The daily block is `dailyBreakdown` (identical text, see
above). -/
def calcKPIs (off : Int) (employees : List Employee)
    (timeLog : List TimeLogEntry) (liveT : Employee → LiveTimes) (now : Int) :
    KPIs :=
  let totalActive := employees.foldl (fun acc e => acc + (liveT e).active) 0
  let totalIdle := employees.foldl (fun acc e => acc + (liveT e).idle) 0
  let totalAll := totalActive + totalIdle
  let starts := (timeLog.filter (fun t => t.event == "start")).map (·.«at»)
  let firstStart : Option Int :=
    match starts with
    | [] => none
    | x :: xs => some (xs.foldl min x)
  let ends :=
    (timeLog.filter (fun t => t.event == "stop" || t.event == "deleted")).map (·.«at»)
  let lastStop : Option Int :=
    match ends with
    | [] => none
    | x :: xs => some (xs.foldl max x)
  let anyEngagedNow :=
    employees.any (fun e => e.status == EmpStatus.active || e.status == EmpStatus.paused)
  let endForActual := if anyEngagedNow then now else lastStop.getD now
  let acms :=
    if truthyNum firstStart then max 0 (endForActual - firstStart.getD 0) else 0
  let util : ℚ := if acms ≠ 0 then (totalActive : ℚ) / (acms : ℚ) else 0
  let ch : ℚ := (totalActive : ℚ) / 3600000
  let ir : ℚ := if totalAll ≠ 0 then (totalIdle : ℚ) / (totalAll : ℚ) else 0
  { totalActive := totalActive
    totalIdle := totalIdle
    totalAll := totalAll
    actualClockMs := acms
    utilization := util
    crewHours := ch
    idleRatio := ir
    daily := dailyBreakdown off timeLog now }

/-! Employee-state mutators from `App.tsx`. Each handler reads `Date.now()`
(modelled as the explicit parameter `now`), appends a time-log entry (which
does not touch employee state and is not needed for the state invariant), and
maps over the employee list. -/

/-- `addEmployee`: guard `if (!name) return;` on the trimmed name, then append
a fresh idle employee with `startTime: null`, `elapsedTime: 0`,
`pausedAccum: 0`, `lastPausedAt: null`. `name` stands for the already-trimmed
input, `newId` for the `Date.now()` identifier. -/
def addEmployee (employees : List Employee) (name : String) (newId : Int) :
    List Employee :=
  if name = "" then employees
  else employees ++ [⟨newId, name, EmpStatus.idle, none, 0, 0, none⟩]

/-- `startTimer(id)`: no-op when the employee is missing or already active;
otherwise fold an open pause into `pausedAccum` (guarded by
`e.status === "paused" && e.lastPausedAt`, JS truthiness) and switch to
`active` with `startTime: Date.now()`, `lastPausedAt: null`. -/
def startTimer (employees : List Employee) (id now : Int) : List Employee :=
  match employees.find? (fun e => e.id == id) with
  | none => employees
  | some emp =>
    if emp.status = EmpStatus.active then employees
    else
      employees.map (fun e =>
        if e.id == id then
          let pausedAccum :=
            if e.status == EmpStatus.paused && truthyNum e.lastPausedAt then
              e.pausedAccum + (now - e.lastPausedAt.getD 0)
            else e.pausedAccum
          { e with
            status := EmpStatus.active
            startTime := some now
            lastPausedAt := none
            pausedAccum := pausedAccum }
        else e)

/-- `confirmReason` with `action === "pause"`: no-op unless the target is
`active` with a truthy `startTime`; otherwise close the active run into
`elapsedTime` (`Date.now() - e.startTime!`, the non-null assertion coercing a
null to `0`) and switch to `paused` with `lastPausedAt: Date.now()`. -/
def pauseTimer (employees : List Employee) (id now : Int) : List Employee :=
  match employees.find? (fun e => e.id == id) with
  | none => employees
  | some emp =>
    if ¬(emp.status = EmpStatus.active ∧ truthyNum emp.startTime) then employees
    else
      employees.map (fun e =>
        if e.id == id then
          { e with
            status := EmpStatus.paused
            elapsedTime := e.elapsedTime + (now - e.startTime.getD 0)
            startTime := none
            lastPausedAt := some now }
        else e)

/-- `confirmReason` with `action === "stop"`: no-op unless the target is
`active` or `paused`; an active run (truthy `startTime`) is closed into
`elapsedTime`, an open pause (truthy `lastPausedAt`) into `pausedAccum`;
either way the employee becomes `idle`. -/
def stopTimer (employees : List Employee) (id now : Int) : List Employee :=
  match employees.find? (fun e => e.id == id) with
  | none => employees
  | some emp =>
    if emp.status ≠ EmpStatus.active ∧ emp.status ≠ EmpStatus.paused then
      employees
    else
      employees.map (fun e =>
        if e.id == id then
          if e.status == EmpStatus.active && truthyNum e.startTime then
            { e with
              status := EmpStatus.idle
              elapsedTime := e.elapsedTime + (now - e.startTime.getD 0)
              startTime := none }
          else if e.status == EmpStatus.paused && truthyNum e.lastPausedAt then
            { e with
              status := EmpStatus.idle
              pausedAccum := e.pausedAccum + (now - e.lastPausedAt.getD 0)
              lastPausedAt := none }
          else e
        else e)

/-- The specified per-employee state invariant: `startTime` is present iff the
status is `active`, and `lastPausedAt` is present iff the status is
`paused`. -/
def EmpInv (e : Employee) : Prop :=
  (e.startTime.isSome ↔ e.status = EmpStatus.active) ∧
    (e.lastPausedAt.isSome ↔ e.status = EmpStatus.paused)

instance (e : Employee) : Decidable (EmpInv e) := by
  unfold EmpInv; infer_instance

/-- Specification-side description of the walk performed by `addSpanLoop`:
the list of sub-spans of `[t0, t1)` obtained by clipping at local-calendar-day
boundaries. Used only to state what the loop does; the loop itself is the
embedding of the source. -/
def clipSpans (off t0 t1 : Int) : List (Int × Int) :=
  if h : t0 < t1 then
    let b := min t1 (localDayStart off t0 + MS_PER_DAY)
    (t0, b) :: clipSpans off b t1
  else []
termination_by (t1 - t0).toNat
decreasing_by
  have h1 := localDayStart_le off t0
  have h2 := lt_localDayStart_add off t0
  simp only [b] at *
  omega

/-! Helper lemmas. -/

lemma addSpanLoop_step (off ac pc t1 a : Int) (rows : Rows) (h : a < t1) :
    addSpanLoop off ac pc t1 a rows =
      addSpanLoop off ac pc t1 (min t1 (localDayStart off a + MS_PER_DAY))
        (bump rows (utcDayKey a)
          (min t1 (localDayStart off a + MS_PER_DAY) - a) ac pc) := by
  rw [addSpanLoop]
  simp [h]

lemma addSpanLoop_stop (off ac pc t1 a : Int) (rows : Rows) (h : ¬ a < t1) :
    addSpanLoop off ac pc t1 a rows = rows := by
  rw [addSpanLoop]
  simp [h]

lemma lastStopAt_isSome_of_mem (timeLog : List TimeLogEntry)
    (t : TimeLogEntry) (ht : t ∈ timeLog)
    (he : t.event = "stop" ∨ t.event = "deleted") :
    (lastStopAt timeLog).isSome = true := by
  unfold lastStopAt
  have hmem :
      t ∈ timeLog.filter (fun t => t.event == "stop" || t.event == "deleted") := by
    refine List.mem_filter.mpr ⟨ht, ?_⟩
    rcases he with h | h <;> simp [h]
  cases hfl :
      timeLog.filter (fun t => t.event == "stop" || t.event == "deleted") with
  | nil => rw [hfl] at hmem; simp at hmem
  | cons x xs => simp

lemma anyEngaged_false_of_idle (employees : List Employee)
    (h : ∀ e ∈ employees, e.status = EmpStatus.idle) :
    anyEngaged employees = false := by
  unfold anyEngaged
  rw [List.any_eq_false]
  intro e he
  simp [h e he]

/-! Claim theorems. -/

/-- C1 counterexample: with no employees and a single `start` entry at
timestamp `0`, `firstStartAt` is `some 0` (not null), nobody is engaged and
`lastStopAt` is null, so the claim's formula gives
`max(0, end - firstStartAt) = max(0, now - 0) = 1000` at `now = 1000`; the
code's `if (!firstStartAt) return 0` treats the falsy timestamp `0` as absent
and returns `0`. -/
theorem C1_counterexample :
    firstStartAt [⟨0, 0, some 1, "A", "start", none, none⟩] = some 0 ∧
    anyEngaged [] = false ∧
    lastStopAt [⟨0, 0, some 1, "A", "start", none, none⟩] = none ∧
    actualClockMs [] [⟨0, 0, some 1, "A", "start", none, none⟩] 1000 ≠
      max 0 (1000 - 0) := by
  decide

/-- C1 (amended): `actualClockMs` is `0` when `firstStartAt` is null OR equal
to the falsy timestamp `0`; otherwise it is `max(0, end - firstStartAt)` where
`end = now` if any employee is active or paused, else `lastStopAt ?? now`. -/
theorem C1_actualClockMs_amended (employees : List Employee)
    (timeLog : List TimeLogEntry) (nowMs : Int) :
    actualClockMs employees timeLog nowMs =
      match firstStartAt timeLog with
      | none => 0
      | some fs =>
        if fs = 0 then 0
        else
          max 0
            ((if anyEngaged employees then nowMs
              else (lastStopAt timeLog).getD nowMs) - fs) := by
  unfold actualClockMs
  cases h : firstStartAt timeLog with
  | none => simp [truthyNum]
  | some fs =>
    by_cases hf : fs = 0 <;> simp [truthyNum, hf]

/-- C2 counterexample: with no employees (hence all idle vacuously) and a log
whose single `stop` (at `50`) precedes its single `start` (at `100`), the code
clamps `actualClockMs` to `max(0, 50 - 100) = 0`, while the claim's value
`lastStopAt - firstStartAt = -50` is negative; the two differ. -/
theorem C2_counterexample :
    firstStartAt
        [⟨0, 100, some 1, "A", "start", none, none⟩,
         ⟨1, 50, some 1, "A", "stop", none, none⟩] = some 100 ∧
    lastStopAt
        [⟨0, 100, some 1, "A", "start", none, none⟩,
         ⟨1, 50, some 1, "A", "stop", none, none⟩] = some 50 ∧
    actualClockMs []
        [⟨0, 100, some 1, "A", "start", none, none⟩,
         ⟨1, 50, some 1, "A", "stop", none, none⟩] 777 ≠ 50 - 100 := by
  decide

/-- C2 (amended): for a fixed employee list in which every status is `idle`
and a fixed log with at least one `start` and at least one `stop`/`deleted`
entry, `actualClockMs` does not depend on `now`; and whenever `firstStartAt`
is a non-zero timestamp it equals `max(0, lastStopAt - firstStartAt)` (the
clamped difference, not the bare difference of the original claim). -/
theorem C2_freeze_amended (employees : List Employee)
    (timeLog : List TimeLogEntry)
    (hidle : ∀ e ∈ employees, e.status = EmpStatus.idle)
    (_hstart : ∃ t ∈ timeLog, t.event = "start")
    (hstop : ∃ t ∈ timeLog, t.event = "stop" ∨ t.event = "deleted")
    (now now' : Int) :
    actualClockMs employees timeLog now =
        actualClockMs employees timeLog now' ∧
    ∀ fs ls, firstStartAt timeLog = some fs → lastStopAt timeLog = some ls →
      fs ≠ 0 → actualClockMs employees timeLog now = max 0 (ls - fs) := by
  obtain ⟨ts, hts, hev⟩ := hstop
  have hls := lastStopAt_isSome_of_mem timeLog ts hts hev
  obtain ⟨ls, hls'⟩ := Option.isSome_iff_exists.mp hls
  have hae := anyEngaged_false_of_idle employees hidle
  constructor
  · unfold actualClockMs
    rw [hae, hls']
    simp
  · intro fs ls' hfs hls'' hfs0
    rw [hls'] at hls''
    cases hls''
    unfold actualClockMs
    rw [hae, hls', hfs]
    simp [truthyNum, hfs0]

/-- C2 witness: one idle employee, a start at `100` and a stop at `200`; the
amended theorem applies with `now = 5`, `now' = 6` and yields constancy in
`now` together with the clamped-difference formula. -/
theorem C2_freeze_amended_witness :
    actualClockMs [⟨1, "A", EmpStatus.idle, none, 0, 0, none⟩]
        [⟨0, 100, some 1, "A", "start", none, none⟩,
         ⟨1, 200, some 1, "A", "stop", none, none⟩] 5 =
      actualClockMs [⟨1, "A", EmpStatus.idle, none, 0, 0, none⟩]
        [⟨0, 100, some 1, "A", "start", none, none⟩,
         ⟨1, 200, some 1, "A", "stop", none, none⟩] 6 ∧
    ∀ fs ls,
      firstStartAt
          [⟨0, 100, some 1, "A", "start", none, none⟩,
           ⟨1, 200, some 1, "A", "stop", none, none⟩] = some fs →
      lastStopAt
          [⟨0, 100, some 1, "A", "start", none, none⟩,
           ⟨1, 200, some 1, "A", "stop", none, none⟩] = some ls →
      fs ≠ 0 →
      actualClockMs [⟨1, "A", EmpStatus.idle, none, 0, 0, none⟩]
          [⟨0, 100, some 1, "A", "start", none, none⟩,
           ⟨1, 200, some 1, "A", "stop", none, none⟩] 5 = max 0 (ls - fs) :=
  C2_freeze_amended _ _ (by decide) (by decide) (by decide) 5 6

/-- C5 counterexample: an `active` employee whose `startTime` (1000) lies in
the future of `now = 0` gets a negative live `active` value
(`0 + (0 - 1000) = -1000`); the projection does not clamp, so the claim's
unconditional non-negativity fails. -/
theorem C5_counterexample :
    (liveTimes 0 ⟨1, "A", EmpStatus.active, some 1000, 0, 0, none⟩).active
      < 0 := by
  decide

/-- C5 (amended): the live projection is non-negative provided the stored
accumulators are non-negative and `now` is not earlier than the open run's
anchor timestamp; and when `startTime` is null while the status is `active`
(resp. `lastPausedAt` null while `paused`) the open-run contribution is zero,
so `active = elapsedTime` (resp. `idle = pausedAccum`). -/
theorem C5_liveTimes_amended (e : Employee) (now : Int)
    (hel : 0 ≤ e.elapsedTime) (hpa : 0 ≤ e.pausedAccum)
    (hst : ∀ st, e.startTime = some st → st ≤ now)
    (hlp : ∀ lp, e.lastPausedAt = some lp → lp ≤ now) :
    (0 ≤ (liveTimes now e).active ∧ 0 ≤ (liveTimes now e).idle ∧
      0 ≤ (liveTimes now e).total) ∧
    (e.status = EmpStatus.active → e.startTime = none →
      (liveTimes now e).active = e.elapsedTime) ∧
    (e.status = EmpStatus.paused → e.lastPausedAt = none →
      (liveTimes now e).idle = e.pausedAccum) := by
  have hactive : 0 ≤ (liveTimes now e).active := by
    unfold liveTimes
    by_cases h : e.status == EmpStatus.active && truthyNum e.startTime
    · simp only [h, if_true]
      cases hs : e.startTime with
      | none => rw [hs] at h; simp [truthyNum] at h
      | some st =>
        have := hst st hs
        simp [hs]
        omega
    · simp only [h, if_false]
      exact hel
  have hidle : 0 ≤ (liveTimes now e).idle := by
    unfold liveTimes
    by_cases h : e.status == EmpStatus.paused && truthyNum e.lastPausedAt
    · simp only [h, if_true]
      cases hs : e.lastPausedAt with
      | none => rw [hs] at h; simp [truthyNum] at h
      | some lp =>
        have := hlp lp hs
        simp [hs]
        omega
    · simp only [h, if_false]
      exact hpa
  have htotal : (liveTimes now e).total =
      (liveTimes now e).active + (liveTimes now e).idle := by
    unfold liveTimes
    simp
  refine ⟨⟨hactive, hidle, by rw [htotal]; omega⟩, ?_, ?_⟩
  · intro _ hnone
    unfold liveTimes
    simp [hnone, truthyNum]
  · intro _ hnone
    unfold liveTimes
    simp [hnone, truthyNum]

/-- C5 witness: an active employee with `startTime = 500`, `elapsedTime = 10`,
`pausedAccum = 3` at `now = 600` satisfies the amended theorem's hypotheses;
its projection is non-negative and the defensive defaults hold. -/
theorem C5_liveTimes_amended_witness :
    (0 ≤ (liveTimes 600 ⟨1, "A", EmpStatus.active, some 500, 10, 3, none⟩).active ∧
      0 ≤ (liveTimes 600 ⟨1, "A", EmpStatus.active, some 500, 10, 3, none⟩).idle ∧
      0 ≤ (liveTimes 600 ⟨1, "A", EmpStatus.active, some 500, 10, 3, none⟩).total) ∧
    ((⟨1, "A", EmpStatus.active, some 500, 10, 3, none⟩ : Employee).status =
        EmpStatus.active →
      (⟨1, "A", EmpStatus.active, some 500, 10, 3, none⟩ : Employee).startTime =
        none →
      (liveTimes 600 ⟨1, "A", EmpStatus.active, some 500, 10, 3, none⟩).active =
        (⟨1, "A", EmpStatus.active, some 500, 10, 3, none⟩ : Employee).elapsedTime) ∧
    ((⟨1, "A", EmpStatus.active, some 500, 10, 3, none⟩ : Employee).status =
        EmpStatus.paused →
      (⟨1, "A", EmpStatus.active, some 500, 10, 3, none⟩ : Employee).lastPausedAt =
        none →
      (liveTimes 600 ⟨1, "A", EmpStatus.active, some 500, 10, 3, none⟩).idle =
        (⟨1, "A", EmpStatus.active, some 500, 10, 3, none⟩ : Employee).pausedAccum) :=
  C5_liveTimes_amended _ 600 (by decide) (by decide)
    (by intro st h; simp at h; omega) (by intro lp h; simp at h)

/-- C6 counterexample: the two-employee scenario instantiated at `T0 = 0`
(start entries at the falsy timestamp `0`, stops at `3600000`, observed at
`now = 3600000`): the engine returns `actualClockMs = 0` and
`utilization = 0`, not the claimed `3600000` and `2.0`, because
`if (!firstStartAt)` treats the timestamp `0` as absent. -/
theorem C6_counterexample :
    (appKPIs 0
        [⟨1, "A", EmpStatus.idle, none, 3600000, 0, none⟩,
         ⟨2, "B", EmpStatus.idle, none, 3600000, 0, none⟩]
        [⟨1, 0, some 1, "A", "start", none, none⟩,
         ⟨2, 0, some 2, "B", "start", none, none⟩,
         ⟨3, 3600000, some 1, "A", "stop", none, none⟩,
         ⟨4, 3600000, some 2, "B", "stop", none, none⟩]
        3600000).actualClockMs = 0 ∧
    (appKPIs 0
        [⟨1, "A", EmpStatus.idle, none, 3600000, 0, none⟩,
         ⟨2, "B", EmpStatus.idle, none, 3600000, 0, none⟩]
        [⟨1, 0, some 1, "A", "start", none, none⟩,
         ⟨2, 0, some 2, "B", "start", none, none⟩,
         ⟨3, 3600000, some 1, "A", "stop", none, none⟩,
         ⟨4, 3600000, some 2, "B", "stop", none, none⟩]
        3600000).utilization = 0 ∧
    (0 : Int) ≠ 3600000 ∧ (0 : ℚ) ≠ 2 := by
  have hac0 :
      actualClockMs
        [⟨1, "A", EmpStatus.idle, none, 3600000, 0, none⟩,
         ⟨2, "B", EmpStatus.idle, none, 3600000, 0, none⟩]
        [⟨1, 0, some 1, "A", "start", none, none⟩,
         ⟨2, 0, some 2, "B", "start", none, none⟩,
         ⟨3, 3600000, some 1, "A", "stop", none, none⟩,
         ⟨4, 3600000, some 2, "B", "stop", none, none⟩]
        3600000 = 0 := by decide
  refine ⟨by decide, ?_, by decide, by norm_num⟩
  simp only [appKPIs]
  unfold utilization
  rw [hac0]
  norm_num

/-- C6 (amended): for the two-employee scenario started at any non-zero `T0`
(two idle employees with one hour of `elapsedTime` each; start entries for
both at `T0`, stop entries for both at `T0 + 3600000`) and any
`now ≥ T0 + 3600000`, the engine returns `totalActive = 7200000`,
`actualClockMs = 3600000`, `utilization = 2` (legitimately exceeding `1`),
and `crewHours = 2`. -/
theorem C6_scenario_amended (off T0 now : Int) (h0 : T0 ≠ 0)
    (_hnow : T0 + 3600000 ≤ now) :
    (appKPIs off
        [⟨1, "A", EmpStatus.idle, none, 3600000, 0, none⟩,
         ⟨2, "B", EmpStatus.idle, none, 3600000, 0, none⟩]
        [⟨1, T0, some 1, "A", "start", none, none⟩,
         ⟨2, T0, some 2, "B", "start", none, none⟩,
         ⟨3, T0 + 3600000, some 1, "A", "stop", none, none⟩,
         ⟨4, T0 + 3600000, some 2, "B", "stop", none, none⟩]
        now).totalActive = 7200000 ∧
    (appKPIs off
        [⟨1, "A", EmpStatus.idle, none, 3600000, 0, none⟩,
         ⟨2, "B", EmpStatus.idle, none, 3600000, 0, none⟩]
        [⟨1, T0, some 1, "A", "start", none, none⟩,
         ⟨2, T0, some 2, "B", "start", none, none⟩,
         ⟨3, T0 + 3600000, some 1, "A", "stop", none, none⟩,
         ⟨4, T0 + 3600000, some 2, "B", "stop", none, none⟩]
        now).actualClockMs = 3600000 ∧
    (appKPIs off
        [⟨1, "A", EmpStatus.idle, none, 3600000, 0, none⟩,
         ⟨2, "B", EmpStatus.idle, none, 3600000, 0, none⟩]
        [⟨1, T0, some 1, "A", "start", none, none⟩,
         ⟨2, T0, some 2, "B", "start", none, none⟩,
         ⟨3, T0 + 3600000, some 1, "A", "stop", none, none⟩,
         ⟨4, T0 + 3600000, some 2, "B", "stop", none, none⟩]
        now).utilization = 2 ∧
    (1 : ℚ) <
      (appKPIs off
        [⟨1, "A", EmpStatus.idle, none, 3600000, 0, none⟩,
         ⟨2, "B", EmpStatus.idle, none, 3600000, 0, none⟩]
        [⟨1, T0, some 1, "A", "start", none, none⟩,
         ⟨2, T0, some 2, "B", "start", none, none⟩,
         ⟨3, T0 + 3600000, some 1, "A", "stop", none, none⟩,
         ⟨4, T0 + 3600000, some 2, "B", "stop", none, none⟩]
        now).utilization ∧
    (appKPIs off
        [⟨1, "A", EmpStatus.idle, none, 3600000, 0, none⟩,
         ⟨2, "B", EmpStatus.idle, none, 3600000, 0, none⟩]
        [⟨1, T0, some 1, "A", "start", none, none⟩,
         ⟨2, T0, some 2, "B", "start", none, none⟩,
         ⟨3, T0 + 3600000, some 1, "A", "stop", none, none⟩,
         ⟨4, T0 + 3600000, some 2, "B", "stop", none, none⟩]
        now).crewHours = 2 := by
  have hta :
      totalActive now
        [⟨1, "A", EmpStatus.idle, none, 3600000, 0, none⟩,
         ⟨2, "B", EmpStatus.idle, none, 3600000, 0, none⟩] = 7200000 := by
    simp [totalActive, truthyNum]
  have hac :
      actualClockMs
        [⟨1, "A", EmpStatus.idle, none, 3600000, 0, none⟩,
         ⟨2, "B", EmpStatus.idle, none, 3600000, 0, none⟩]
        [⟨1, T0, some 1, "A", "start", none, none⟩,
         ⟨2, T0, some 2, "B", "start", none, none⟩,
         ⟨3, T0 + 3600000, some 1, "A", "stop", none, none⟩,
         ⟨4, T0 + 3600000, some 2, "B", "stop", none, none⟩]
        now = 3600000 := by
    unfold actualClockMs firstStartAt lastStopAt anyEngaged
    simp [truthyNum, h0]
  have hut :
      utilization
        [⟨1, "A", EmpStatus.idle, none, 3600000, 0, none⟩,
         ⟨2, "B", EmpStatus.idle, none, 3600000, 0, none⟩]
        [⟨1, T0, some 1, "A", "start", none, none⟩,
         ⟨2, T0, some 2, "B", "start", none, none⟩,
         ⟨3, T0 + 3600000, some 1, "A", "stop", none, none⟩,
         ⟨4, T0 + 3600000, some 2, "B", "stop", none, none⟩]
        now = 2 := by
    unfold utilization
    rw [hac, hta]
    norm_num
  have hch :
      crewHours now
        [⟨1, "A", EmpStatus.idle, none, 3600000, 0, none⟩,
         ⟨2, "B", EmpStatus.idle, none, 3600000, 0, none⟩] = 2 := by
    unfold crewHours
    rw [hta]
    norm_num
  refine ⟨?_, ?_, ?_, ?_, ?_⟩ <;> simp only [appKPIs]
  · exact hta
  · exact hac
  · exact hut
  · rw [hut]
    norm_num
  · exact hch

/-- C6 witness: the amended scenario instantiated at `T0 = 1`,
`now = 3600001`. -/
theorem C6_scenario_amended_witness :
    (appKPIs 0
        [⟨1, "A", EmpStatus.idle, none, 3600000, 0, none⟩,
         ⟨2, "B", EmpStatus.idle, none, 3600000, 0, none⟩]
        [⟨1, 1, some 1, "A", "start", none, none⟩,
         ⟨2, 1, some 2, "B", "start", none, none⟩,
         ⟨3, 1 + 3600000, some 1, "A", "stop", none, none⟩,
         ⟨4, 1 + 3600000, some 2, "B", "stop", none, none⟩]
        3600001).totalActive = 7200000 ∧
    (appKPIs 0
        [⟨1, "A", EmpStatus.idle, none, 3600000, 0, none⟩,
         ⟨2, "B", EmpStatus.idle, none, 3600000, 0, none⟩]
        [⟨1, 1, some 1, "A", "start", none, none⟩,
         ⟨2, 1, some 2, "B", "start", none, none⟩,
         ⟨3, 1 + 3600000, some 1, "A", "stop", none, none⟩,
         ⟨4, 1 + 3600000, some 2, "B", "stop", none, none⟩]
        3600001).actualClockMs = 3600000 ∧
    (appKPIs 0
        [⟨1, "A", EmpStatus.idle, none, 3600000, 0, none⟩,
         ⟨2, "B", EmpStatus.idle, none, 3600000, 0, none⟩]
        [⟨1, 1, some 1, "A", "start", none, none⟩,
         ⟨2, 1, some 2, "B", "start", none, none⟩,
         ⟨3, 1 + 3600000, some 1, "A", "stop", none, none⟩,
         ⟨4, 1 + 3600000, some 2, "B", "stop", none, none⟩]
        3600001).utilization = 2 ∧
    (1 : ℚ) <
      (appKPIs 0
        [⟨1, "A", EmpStatus.idle, none, 3600000, 0, none⟩,
         ⟨2, "B", EmpStatus.idle, none, 3600000, 0, none⟩]
        [⟨1, 1, some 1, "A", "start", none, none⟩,
         ⟨2, 1, some 2, "B", "start", none, none⟩,
         ⟨3, 1 + 3600000, some 1, "A", "stop", none, none⟩,
         ⟨4, 1 + 3600000, some 2, "B", "stop", none, none⟩]
        3600001).utilization ∧
    (appKPIs 0
        [⟨1, "A", EmpStatus.idle, none, 3600000, 0, none⟩,
         ⟨2, "B", EmpStatus.idle, none, 3600000, 0, none⟩]
        [⟨1, 1, some 1, "A", "start", none, none⟩,
         ⟨2, 1, some 2, "B", "start", none, none⟩,
         ⟨3, 1 + 3600000, some 1, "A", "stop", none, none⟩,
         ⟨4, 1 + 3600000, some 2, "B", "stop", none, none⟩]
        3600001).crewHours = 2 :=
  C6_scenario_amended 0 1 3600001 (by decide) (by decide)

/-- C7: the replay's transition step ignores malformed entries — an entry
whose `employeeId` is not a number, or whose `event` tag is none of
`start`/`pause`/`stop`/`deleted`, leaves the per-employee status snapshot
unchanged — and the engine is total (every embedded function is a total Lean
function); in particular the empty input yields the all-zero KPI record with
an empty daily map. -/
theorem C7_total_and_malformed_ignored :
    (∀ (snap : List (Int × EmpStatus)) (ev : TimeLogEntry),
      ev.employeeId = none ∨
        (ev.event ≠ "start" ∧ ev.event ≠ "pause" ∧ ev.event ≠ "stop" ∧
          ev.event ≠ "deleted") →
      applyEvent snap ev = snap) ∧
    ∀ off nowMs, appKPIs off [] [] nowMs = ⟨0, 0, 0, 0, 0, 0, 0, []⟩ := by
  constructor
  · intro snap ev h
    unfold applyEvent
    cases hid : ev.employeeId with
    | none => rfl
    | some id =>
      rcases h with h | ⟨h1, h2, h3, h4⟩
      · rw [hid] at h; cases h
      · simp [h1, h2, h3, h4]
  · intro off nowMs
    have h1 : totalActive nowMs [] = 0 := rfl
    have h2 : totalIdle nowMs [] = 0 := rfl
    have h3 : actualClockMs [] [] nowMs = 0 := rfl
    have h4 : dailyBreakdown off [] nowMs = [] := rfl
    unfold appKPIs utilization crewHours idleRatio
    rw [h1, h2, h3, h4]
    norm_num

/-- C7 witness: a snapshot is unchanged by an entry with an unknown event tag
(`"bogus"`), applying the theorem at a concrete snapshot and entry. -/
theorem C7_total_and_malformed_ignored_witness :
    applyEvent [(1, EmpStatus.idle)]
        ⟨0, 5, some 1, "A", "bogus", none, none⟩ = [(1, EmpStatus.idle)] :=
  C7_total_and_malformed_ignored.1 _ _ (Or.inr (by decide))

/-- C8: the engine is a deterministic pure function of the
`(employees, timeLog, now)` snapshot — two evaluations on equal inputs yield
equal outputs in every field, daily map included, for both the dashboard
computation and the report generators' `calcKPIs` (the source reads no
mutable state besides `Date.now()`, which is the explicit `now` argument of
the embedding). -/
theorem C8_deterministic (off : Int) (emps1 emps2 : List Employee)
    (log1 log2 : List TimeLogEntry) (now1 now2 : Int)
    (he : emps1 = emps2) (hl : log1 = log2) (hn : now1 = now2) :
    appKPIs off emps1 log1 now1 = appKPIs off emps2 log2 now2 ∧
      calcKPIs off emps1 log1 (liveTimes now1) now1 =
        calcKPIs off emps2 log2 (liveTimes now2) now2 := by
  subst he
  subst hl
  subst hn
  exact ⟨rfl, rfl⟩

/-- C8 witness: determinism applied at a concrete snapshot. -/
theorem C8_deterministic_witness :
    appKPIs 0 [⟨1, "A", EmpStatus.idle, none, 0, 0, none⟩] [] 7 =
        appKPIs 0 [⟨1, "A", EmpStatus.idle, none, 0, 0, none⟩] [] 7 ∧
      calcKPIs 0 [⟨1, "A", EmpStatus.idle, none, 0, 0, none⟩] []
          (liveTimes 7) 7 =
        calcKPIs 0 [⟨1, "A", EmpStatus.idle, none, 0, 0, none⟩] []
          (liveTimes 7) 7 :=
  C8_deterministic 0 _ _ _ _ 7 7 rfl rfl rfl

/-- C9: each employee-state mutating operation — add, start, pause, stop —
preserves the invariant that `startTime` is present iff the status is
`active` and `lastPausedAt` is present iff the status is `paused`, for every
employee in the list. -/
theorem C9_state_invariant_preserved (employees : List Employee)
    (hinv : ∀ e ∈ employees, EmpInv e) (name : String) (newId id now : Int) :
    (∀ e ∈ addEmployee employees name newId, EmpInv e) ∧
    (∀ e ∈ startTimer employees id now, EmpInv e) ∧
    (∀ e ∈ pauseTimer employees id now, EmpInv e) ∧
    (∀ e ∈ stopTimer employees id now, EmpInv e) := by
  refine ⟨?_, ?_, ?_, ?_⟩
  · intro e he
    unfold addEmployee at he
    split at he
    · exact hinv e he
    · rcases List.mem_append.mp he with h | h
      · exact hinv e h
      · simp only [List.mem_singleton] at h
        subst h
        simp [EmpInv]
  · intro e he
    unfold startTimer at he
    split at he
    · exact hinv e he
    · split at he
      · exact hinv e he
      · obtain ⟨a, ha, rfl⟩ := List.mem_map.mp he
        have ha' := hinv a ha
        by_cases hid : (a.id == id) = true
        · simp only [hid, if_true]
          simp [EmpInv]
        · simp only [hid, if_false]
          exact ha'
  · intro e he
    unfold pauseTimer at he
    split at he
    · exact hinv e he
    · split at he
      · exact hinv e he
      · obtain ⟨a, ha, rfl⟩ := List.mem_map.mp he
        have ha' := hinv a ha
        by_cases hid : (a.id == id) = true
        · simp only [hid, if_true]
          simp [EmpInv]
        · simp only [hid, if_false]
          exact ha'
  · intro e he
    unfold stopTimer at he
    split at he
    · exact hinv e he
    · split at he
      · exact hinv e he
      · obtain ⟨a, ha, rfl⟩ := List.mem_map.mp he
        have ha' := hinv a ha
        by_cases hid : (a.id == id) = true
        · simp only [hid, if_true]
          by_cases h1 : (a.status == EmpStatus.active && truthyNum a.startTime) = true
          · simp only [h1, if_true]
            have hsa : a.status = EmpStatus.active := by
              simp only [Bool.and_eq_true, beq_iff_eq] at h1
              exact h1.1
            have hlp : a.lastPausedAt = none := by
              have h2 := ha'.2
              rw [hsa] at h2
              simp at h2
              exact h2
            simp [EmpInv, hlp]
          · simp only [h1, if_false]
            by_cases h2 : (a.status == EmpStatus.paused && truthyNum a.lastPausedAt) = true
            · simp only [h2, if_true]
              have hsp : a.status = EmpStatus.paused := by
                simp only [Bool.and_eq_true, beq_iff_eq] at h2
                exact h2.1
              have hst : a.startTime = none := by
                have h3 := ha'.1
                rw [hsp] at h3
                simp at h3
                exact h3
              simp [EmpInv, hst]
            · simp only [h2, if_false]
              exact ha'
        · simp only [hid, if_false]
          exact ha'

/-- C9 witness: the four operations applied to a one-employee list that
satisfies the invariant. -/
theorem C9_state_invariant_preserved_witness :
    (∀ e ∈ addEmployee [⟨1, "A", EmpStatus.idle, none, 0, 0, none⟩] "B" 2,
      EmpInv e) ∧
    (∀ e ∈ startTimer [⟨1, "A", EmpStatus.idle, none, 0, 0, none⟩] 1 100,
      EmpInv e) ∧
    (∀ e ∈ pauseTimer [⟨1, "A", EmpStatus.idle, none, 0, 0, none⟩] 1 100,
      EmpInv e) ∧
    (∀ e ∈ stopTimer [⟨1, "A", EmpStatus.idle, none, 0, 0, none⟩] 1 100,
      EmpInv e) :=
  C9_state_invariant_preserved [⟨1, "A", EmpStatus.idle, none, 0, 0, none⟩]
    (by decide) "B" 2 1 100

/-- C10: on every identical snapshot of employees, time log, injected
live-time function and instant `now`, the report generators' duplicated
`calcKPIs` (both copies) and the dashboard's KPI computation in `App.tsx`
agree on every output field — `totalActive`, `totalIdle`, `totalAll`,
`actualClockMs`, `utilization`, `crewHours`, `idleRatio`, and the daily
breakdown map. -/
theorem C10_report_matches_dashboard (off : Int) (employees : List Employee)
    (timeLog : List TimeLogEntry) (now : Int) :
    calcKPIs off employees timeLog (liveTimes now) now =
      appKPIs off employees timeLog now := by
  have hflip : ∀ (fs ls : Option Int) (ae : Bool) (n : Int),
      (if truthyNum fs then
        max 0 ((if ae = true then n else ls.getD n) - fs.getD 0)
      else 0) =
      (if truthyNum fs = false then 0
      else max 0 ((if ae = true then n else ls.getD n) - fs.getD 0)) := by
    intro fs ls ae n
    by_cases h : truthyNum fs <;> simp [h]
  simp only [calcKPIs, appKPIs, utilization, crewHours, idleRatio,
    actualClockMs]
  rw [hflip]
  rfl

/-! Lemmas describing the clipped-span walk. -/

lemma clipSpans_eq (off t0 t1 : Int) (h : t0 < t1) :
    clipSpans off t0 t1 =
      (t0, min t1 (localDayStart off t0 + MS_PER_DAY)) ::
        clipSpans off (min t1 (localDayStart off t0 + MS_PER_DAY)) t1 := by
  rw [clipSpans]
  simp [h]

lemma clipSpans_nil (off t0 t1 : Int) (h : ¬ t0 < t1) :
    clipSpans off t0 t1 = [] := by
  rw [clipSpans]
  simp [h]

lemma addSpanLoop_eq_clipSpans_foldl (off ac pc : Int) :
    ∀ (n : Nat) (t0 t1 : Int), (t1 - t0).toNat ≤ n → ∀ rows : Rows,
      addSpanLoop off ac pc t1 t0 rows =
        (clipSpans off t0 t1).foldl
          (fun r p => bump r (utcDayKey p.1) (p.2 - p.1) ac pc) rows := by
  intro n
  induction n with
  | zero =>
    intro t0 t1 hle rows
    have h : ¬ t0 < t1 := by omega
    rw [addSpanLoop_stop _ _ _ _ _ _ h, clipSpans_nil _ _ _ h]
    rfl
  | succ n ih =>
    intro t0 t1 hle rows
    by_cases h : t0 < t1
    · have h2 := lt_localDayStart_add off t0
      have hb1 : min t1 (localDayStart off t0 + MS_PER_DAY) ≤ t1 :=
        min_le_left _ _
      have hb2 : t0 < min t1 (localDayStart off t0 + MS_PER_DAY) := lt_min h h2
      rw [addSpanLoop_step _ _ _ _ _ _ h, clipSpans_eq _ _ _ h]
      rw [List.foldl_cons]
      exact ih _ _ (by omega) _
    · rw [addSpanLoop_stop _ _ _ _ _ _ h, clipSpans_nil _ _ _ h]
      rfl

lemma clipSpans_mem (off : Int) :
    ∀ (n : Nat) (t0 t1 : Int), (t1 - t0).toNat ≤ n →
      ∀ p ∈ clipSpans off t0 t1,
        p.1 < p.2 ∧ p.2 = min t1 (localDayStart off p.1 + MS_PER_DAY) := by
  intro n
  induction n with
  | zero =>
    intro t0 t1 hle p hp
    rw [clipSpans_nil _ _ _ (by omega)] at hp
    simp at hp
  | succ n ih =>
    intro t0 t1 hle p hp
    by_cases h : t0 < t1
    · rw [clipSpans_eq _ _ _ h] at hp
      have h2 := lt_localDayStart_add off t0
      have hb1 : min t1 (localDayStart off t0 + MS_PER_DAY) ≤ t1 :=
        min_le_left _ _
      have hb2 : t0 < min t1 (localDayStart off t0 + MS_PER_DAY) := lt_min h h2
      rcases List.mem_cons.mp hp with rfl | hp'
      · exact ⟨hb2, rfl⟩
      · exact ih _ _ (by omega) p hp'
    · rw [clipSpans_nil _ _ _ h] at hp
      simp at hp

lemma clipSpans_head (off t0 t1 : Int) (h : t0 < t1) :
    (clipSpans off t0 t1).head?.map Prod.fst = some t0 := by
  rw [clipSpans_eq _ _ _ h]
  rfl

lemma clipSpans_chain (off : Int) :
    ∀ (n : Nat) (t0 t1 : Int), (t1 - t0).toNat ≤ n →
      List.Chain' (fun p q : Int × Int => p.2 = q.1) (clipSpans off t0 t1) := by
  intro n
  induction n with
  | zero =>
    intro t0 t1 hle
    rw [clipSpans_nil _ _ _ (by omega)]
    exact List.chain'_nil
  | succ n ih =>
    intro t0 t1 hle
    by_cases h : t0 < t1
    · have h2 := lt_localDayStart_add off t0
      have hb1 : min t1 (localDayStart off t0 + MS_PER_DAY) ≤ t1 :=
        min_le_left _ _
      have hb2 : t0 < min t1 (localDayStart off t0 + MS_PER_DAY) := lt_min h h2
      rw [clipSpans_eq _ _ _ h, List.chain'_cons']
      constructor
      · intro q hq
        by_cases hb : min t1 (localDayStart off t0 + MS_PER_DAY) < t1
        · rw [clipSpans_eq _ _ _ hb] at hq
          simp only [List.head?_cons, Option.mem_def, Option.some.injEq] at hq
          rw [← hq]
        · rw [clipSpans_nil _ _ _ hb] at hq
          simp at hq
      · exact ih _ _ (by omega)
    · rw [clipSpans_nil _ _ _ h]
      exact List.chain'_nil

lemma clipSpans_sum (off : Int) :
    ∀ (n : Nat) (t0 t1 : Int), (t1 - t0).toNat ≤ n → t0 < t1 →
      ((clipSpans off t0 t1).map (fun p => p.2 - p.1)).sum = t1 - t0 := by
  intro n
  induction n with
  | zero =>
    intro t0 t1 hle h
    omega
  | succ n ih =>
    intro t0 t1 hle h
    have h2 := lt_localDayStart_add off t0
    have hb1 : min t1 (localDayStart off t0 + MS_PER_DAY) ≤ t1 :=
      min_le_left _ _
    have hb2 : t0 < min t1 (localDayStart off t0 + MS_PER_DAY) := lt_min h h2
    rw [clipSpans_eq _ _ _ h, List.map_cons, List.sum_cons]
    by_cases hb : min t1 (localDayStart off t0 + MS_PER_DAY) < t1
    · rw [ih _ _ (by omega) hb]
      omega
    · rw [clipSpans_nil _ _ _ hb]
      simp
      omega

/-- C3 (amended): for every non-empty interval `[t0, t1)`, the replay's
`addSpan` walks exactly the sub-spans of `[t0, t1)` clipped at local-calendar-
day boundaries — the sub-spans are non-empty, each one ends at the earlier of
`t1` and the end of the local day containing its start, consecutive sub-spans
abut, the first starts at `t0` and their durations sum to `t1 - t0` — and each
sub-span `[a, b)` is credited (crew-weighted) to the bucket keyed by the UTC
calendar date of `a` (via `toISOString`), not the local calendar date claimed
by the specification. -/
theorem C3_clipping_amended (off : Int) (snap : List (Int × EmpStatus))
    (t0 t1 : Int) (rows : Rows) (h : t0 < t1) :
    addSpan off snap t0 t1 rows =
      (clipSpans off t0 t1).foldl
        (fun r p => bump r (utcDayKey p.1) (p.2 - p.1)
          (countStatus snap EmpStatus.active)
          (countStatus snap EmpStatus.paused)) rows ∧
    (∀ p ∈ clipSpans off t0 t1,
      p.1 < p.2 ∧ p.2 = min t1 (localDayStart off p.1 + MS_PER_DAY)) ∧
    List.Chain' (fun p q : Int × Int => p.2 = q.1) (clipSpans off t0 t1) ∧
    (clipSpans off t0 t1).head?.map Prod.fst = some t0 ∧
    ((clipSpans off t0 t1).map (fun p => p.2 - p.1)).sum = t1 - t0 := by
  refine ⟨?_, ?_, ?_, ?_, ?_⟩
  · unfold addSpan
    rw [if_neg (by omega)]
    exact addSpanLoop_eq_clipSpans_foldl off _ _ (t1 - t0).toNat t0 t1 le_rfl rows
  · exact clipSpans_mem off (t1 - t0).toNat t0 t1 le_rfl
  · exact clipSpans_chain off (t1 - t0).toNat t0 t1 le_rfl
  · exact clipSpans_head off t0 t1 h
  · exact clipSpans_sum off (t1 - t0).toNat t0 t1 le_rfl h

/-- C3 witness: the clipping description applied to the concrete interval
`[70000000, 70060000)` in the zone `UTC+5` with one active employee. -/
theorem C3_clipping_amended_witness :
    addSpan 18000000 [(1, EmpStatus.active)] 70000000 70060000 [] =
      (clipSpans 18000000 70000000 70060000).foldl
        (fun r p => bump r (utcDayKey p.1) (p.2 - p.1)
          (countStatus [(1, EmpStatus.active)] EmpStatus.active)
          (countStatus [(1, EmpStatus.active)] EmpStatus.paused)) [] ∧
    (∀ p ∈ clipSpans 18000000 70000000 70060000,
      p.1 < p.2 ∧
        p.2 = min 70060000 (localDayStart 18000000 p.1 + MS_PER_DAY)) ∧
    List.Chain' (fun p q : Int × Int => p.2 = q.1)
      (clipSpans 18000000 70000000 70060000) ∧
    (clipSpans 18000000 70000000 70060000).head?.map Prod.fst =
      some 70000000 ∧
    ((clipSpans 18000000 70000000 70060000).map (fun p => p.2 - p.1)).sum =
      70060000 - 70000000 :=
  C3_clipping_amended 18000000 [(1, EmpStatus.active)] 70000000 70060000 []
    (by norm_num)

/-- C3 counterexample: in the zone `UTC+5` (`off = 18000000`), the span
`[70000000, 70060000)` lies entirely inside the local calendar day with index
`1` (its local wall-clock time is past local midnight), yet the produced daily
bucket is keyed by the UTC date of its start, day index `0` — not the local
calendar date the claim requires. -/
theorem C3_counterexample :
    dailyBreakdown 18000000
        [⟨1, 70000000, some 1, "A", "start", none, none⟩,
         ⟨2, 70060000, some 1, "A", "stop", none, none⟩] 0 =
      [(utcDayKey 70000000, ⟨60000, 60000, 0⟩)] ∧
    utcDayKey 70000000 = 0 ∧
    localDayKey 18000000 70000000 = 1 ∧
    utcDayKey 70000000 ≠ localDayKey 18000000 70000000 := by
  refine ⟨?_, by decide, by decide, by decide⟩
  rw [dailyBreakdown]
  simp only [sortByAt, insertByAt, dedupFirst, lastStopAt, applyEvent,
    setStatus, addSpan, countStatus, List.foldl, List.filterMap, List.filter,
    List.map, List.contains, List.any, List.elem]
  norm_num
  rw [addSpanLoop_step _ _ _ _ _ _ (by norm_num)]
  norm_num [localDayStart, MS_PER_DAY, utcDayKey, bump]
  rw [addSpanLoop_stop _ _ _ _ _ _ (by norm_num)]
  decide

/-! Lemmas for the midnight-crossing single-span scenario. -/

lemma dailyBreakdown_start_stop (off eid i1 i2 : Int) (nm : String)
    (s e now : Int) (hse : s < e) :
    dailyBreakdown off
        [⟨i1, s, some eid, nm, "start", none, none⟩,
         ⟨i2, e, some eid, nm, "stop", none, none⟩] now =
      addSpanLoop off 1 0 e s [] := by
  have hns : ¬ (e ≤ s) := not_le.mpr hse
  rw [dailyBreakdown]
  simp only [sortByAt, insertByAt, dedupFirst, lastStopAt, applyEvent,
    setStatus, addSpan, countStatus, List.foldl, List.filterMap, List.filter,
    List.map, List.contains, List.any, List.elem]
  simp [le_of_lt hse, hns]

lemma localDayStart_zero_add (s : Int) :
    localDayStart 0 s + MS_PER_DAY = (s / MS_PER_DAY + 1) * MS_PER_DAY := by
  unfold localDayStart
  ring

lemma localDayStart_day_end (off s : Int) :
    localDayStart off (localDayStart off s + MS_PER_DAY) =
      localDayStart off s + MS_PER_DAY := by
  unfold localDayStart MS_PER_DAY
  have hD : (86400000 : Int) ≠ 0 := by norm_num
  rw [show (s + off) / 86400000 * 86400000 - off + 86400000 + off =
      ((s + off) / 86400000 + 1) * 86400000 by ring]
  rw [Int.mul_ediv_cancel _ hD]
  ring

lemma bump_touchMs_sum (rows : Rows) (key dur ac pc : Int) :
    ((bump rows key dur ac pc).map (fun p => p.2.touchMs)).sum =
      (rows.map (fun p => p.2.touchMs)).sum + dur * ac := by
  induction rows with
  | nil => simp [bump]
  | cons hd tl ih =>
    obtain ⟨k, b⟩ := hd
    by_cases h : k = key
    · simp [bump, h]
      ring
    · simp [bump, h, ih]
      ring

lemma addSpanLoop_cross_bumps (off s e : Int)
    (hcross : localDayStart off s + MS_PER_DAY < e)
    (hone : e ≤ localDayStart off s + MS_PER_DAY + MS_PER_DAY) :
    addSpanLoop off 1 0 e s [] =
      bump (bump [] (utcDayKey s) (localDayStart off s + MS_PER_DAY - s) 1 0)
        (utcDayKey (localDayStart off s + MS_PER_DAY))
        (e - (localDayStart off s + MS_PER_DAY)) 1 0 := by
  have h2 := lt_localDayStart_add off s
  have hse : s < e := lt_trans h2 hcross
  rw [addSpanLoop_step _ _ _ _ _ _ hse, min_eq_right (le_of_lt hcross)]
  rw [addSpanLoop_step _ _ _ _ _ _ hcross, localDayStart_day_end,
    min_eq_left hone]
  rw [addSpanLoop_stop _ _ _ _ _ _ (lt_irrefl e)]

lemma clipSpans_cross (off s e : Int)
    (hcross : localDayStart off s + MS_PER_DAY < e)
    (hone : e ≤ localDayStart off s + MS_PER_DAY + MS_PER_DAY) :
    clipSpans off s e =
      [(s, localDayStart off s + MS_PER_DAY),
       (localDayStart off s + MS_PER_DAY, e)] := by
  have h2 := lt_localDayStart_add off s
  have hse : s < e := lt_trans h2 hcross
  rw [clipSpans_eq _ _ _ hse, min_eq_right (le_of_lt hcross)]
  rw [clipSpans_eq _ _ _ hcross, localDayStart_day_end, min_eq_left hone]
  rw [clipSpans_nil _ _ _ (lt_irrefl e)]

lemma addSpanLoop_cross (s e : Int) (hse : s < e)
    (hcross : (s / MS_PER_DAY + 1) * MS_PER_DAY < e)
    (hone : e ≤ (s / MS_PER_DAY + 1) * MS_PER_DAY + MS_PER_DAY) :
    addSpanLoop 0 1 0 e s [] =
      [(s / MS_PER_DAY,
          ⟨(s / MS_PER_DAY + 1) * MS_PER_DAY - s,
           (s / MS_PER_DAY + 1) * MS_PER_DAY - s, 0⟩),
       (s / MS_PER_DAY + 1,
          ⟨e - (s / MS_PER_DAY + 1) * MS_PER_DAY,
           e - (s / MS_PER_DAY + 1) * MS_PER_DAY, 0⟩)] := by
  have hD : (86400000 : Int) ≠ 0 := by norm_num
  have hday1 : localDayStart 0 s + MS_PER_DAY =
      (s / MS_PER_DAY + 1) * MS_PER_DAY := by
    unfold localDayStart
    ring
  have hday2 :
      localDayStart 0 ((s / MS_PER_DAY + 1) * MS_PER_DAY) + MS_PER_DAY =
        (s / MS_PER_DAY + 1) * MS_PER_DAY + MS_PER_DAY := by
    unfold localDayStart MS_PER_DAY
    rw [add_zero, Int.mul_ediv_cancel _ hD]
    ring
  have hkey2 : utcDayKey ((s / MS_PER_DAY + 1) * MS_PER_DAY) =
      s / MS_PER_DAY + 1 := by
    unfold utcDayKey MS_PER_DAY
    exact Int.mul_ediv_cancel _ hD
  have hkey1 : utcDayKey s = s / MS_PER_DAY := rfl
  have hne : s / MS_PER_DAY ≠ s / MS_PER_DAY + 1 := by omega
  rw [addSpanLoop_step _ _ _ _ _ _ hse, hday1,
    min_eq_right (le_of_lt hcross)]
  rw [addSpanLoop_step _ _ _ _ _ _ hcross, hday2, min_eq_left hone]
  rw [addSpanLoop_stop _ _ _ _ _ _ (lt_irrefl e)]
  simp [bump, hkey1, hkey2, hne]

/-- C4 counterexample: in the zone `UTC+5` (`off = 18000000`) a single active
span `[64800000, 72000000)` crosses exactly one local midnight (the instant
`68400000`, which is the end of the local day containing the span's start,
and the span ends before the following local midnight), yet the daily
breakdown contains one bucket, not the two the claim requires — both clipped
sub-spans start on the same UTC calendar date, so their contributions merge
under the UTC-date bucket key. -/
theorem C4_counterexample :
    (64800000 : Int) < 68400000 ∧ (68400000 : Int) < 72000000 ∧
    localDayStart 18000000 64800000 + MS_PER_DAY = 68400000 ∧
    (72000000 : Int) ≤ 68400000 + MS_PER_DAY ∧
    (dailyBreakdown 18000000
        [⟨1, 64800000, some 1, "A", "start", none, none⟩,
         ⟨2, 72000000, some 1, "A", "stop", none, none⟩] 0).length ≠ 2 := by
  refine ⟨by decide, by decide, by decide, by decide, ?_⟩
  rw [dailyBreakdown]
  simp only [sortByAt, insertByAt, dedupFirst, lastStopAt, applyEvent,
    setStatus, addSpan, countStatus, List.foldl, List.filterMap, List.filter,
    List.map, List.contains, List.any, List.elem]
  norm_num
  rw [addSpanLoop_step _ _ _ _ _ _ (by norm_num)]
  norm_num [localDayStart, MS_PER_DAY, utcDayKey, bump]
  rw [addSpanLoop_step _ _ _ _ _ _ (by norm_num)]
  norm_num [localDayStart, MS_PER_DAY, utcDayKey, bump]
  rw [addSpanLoop_stop _ _ _ _ _ _ (by norm_num)]
  decide

/-- C4 (amended): for every observer zone `off`, a log producing a single
span `[s, e)` with exactly one employee active that crosses exactly one local
midnight — the end `localDayStart off s + MS_PER_DAY` of the local day
containing `s` lies before `e`, and `e` is no later than the following local
midnight — is split into exactly the two sub-spans meeting at that midnight,
and the sum of `touchMs` over the daily buckets equals `(e - s) * 1`, the
undivided span's duration times its active count; when the observer's zone is
UTC (`off = 0`, where local and UTC calendar dates coincide) the daily
breakdown moreover contains exactly two buckets. For a non-UTC zone the two
sub-spans can share a UTC bucket key and the bucket count drops to one (see
the counterexample). -/
theorem C4_day_boundary_split_amended (off eid i1 i2 : Int) (nm : String)
    (s e now : Int)
    (hcross : localDayStart off s + MS_PER_DAY < e)
    (hone : e ≤ localDayStart off s + MS_PER_DAY + MS_PER_DAY) :
    clipSpans off s e =
      [(s, localDayStart off s + MS_PER_DAY),
       (localDayStart off s + MS_PER_DAY, e)] ∧
    ((dailyBreakdown off
        [⟨i1, s, some eid, nm, "start", none, none⟩,
         ⟨i2, e, some eid, nm, "stop", none, none⟩] now).map
      (fun p => p.2.touchMs)).sum = (e - s) * 1 ∧
    (off = 0 →
      (dailyBreakdown off
        [⟨i1, s, some eid, nm, "start", none, none⟩,
         ⟨i2, e, some eid, nm, "stop", none, none⟩] now).length = 2) := by
  have h2 := lt_localDayStart_add off s
  have hse : s < e := lt_trans h2 hcross
  refine ⟨clipSpans_cross off s e hcross hone, ?_, ?_⟩
  · rw [dailyBreakdown_start_stop off eid i1 i2 nm s e now hse,
      addSpanLoop_cross_bumps off s e hcross hone,
      bump_touchMs_sum, bump_touchMs_sum]
    simp
  · intro h0
    subst h0
    rw [dailyBreakdown_start_stop 0 eid i1 i2 nm s e now hse,
      addSpanLoop_cross s e hse
        (by rw [← localDayStart_zero_add]; exact hcross)
        (by rw [← localDayStart_zero_add]; exact hone)]
    rfl

/-- C4 witness: the amended split applied to the concrete span
`[82800000, 90000000)` (23:00 to 25:00 UTC of day 0) observed from the UTC
zone: the two sub-spans meet at the midnight `86400000`, the `touchMs` values
sum to the undivided `7200000`, and the buckets are exactly two. -/
theorem C4_day_boundary_split_amended_witness :
    clipSpans 0 82800000 90000000 =
      [(82800000, localDayStart 0 82800000 + MS_PER_DAY),
       (localDayStart 0 82800000 + MS_PER_DAY, 90000000)] ∧
    ((dailyBreakdown 0
        [⟨1, 82800000, some 7, "A", "start", none, none⟩,
         ⟨2, 90000000, some 7, "A", "stop", none, none⟩] 0).map
      (fun p => p.2.touchMs)).sum = (90000000 - 82800000) * 1 ∧
    ((0 : Int) = 0 →
      (dailyBreakdown 0
        [⟨1, 82800000, some 7, "A", "start", none, none⟩,
         ⟨2, 90000000, some 7, "A", "stop", none, none⟩] 0).length = 2) :=
  C4_day_boundary_split_amended 0 7 1 2 "A" 82800000 90000000 0
    (by norm_num [localDayStart, MS_PER_DAY])
    (by norm_num [localDayStart, MS_PER_DAY])

end WorkMeasurement
